import Mathlib

/-!
Shallow embedding of the Rocket League SDK example resolver
(`examples/basic.ts`) and of the bitfield read/write mechanism documented
in the repository README.

Foreign-process memory is modelled as a record of partial read primitives
(`none` models a read that throws a read fault in the source, where it is
caught by the surrounding `try`/`catch`).  Addresses and scalar values are
`Int`, matching the source's `BigInt` address arithmetic.  The field
offsets imported by the example from `types/offsets` are opaque constants
there, so they are parameters of the embedding.
-/

/-- The `UObject` field offsets imported by the example (`UObject.Class`,
`UObject.Name`, `UObject.Outer`). -/
structure UObjectOffsets where
  Class : Int
  Name : Int
  Outer : Int
  deriving DecidableEq

/-- The `FNameEntry` offsets imported by the example (`FNameEntry.Name`,
the sub-offset of the wide string inside a name entry). -/
structure FNameEntryOffsets where
  Name : Int
  deriving DecidableEq

/-- The foreign-memory capability used by the example (`rl` in the source).
Each primitive returns `none` when the corresponding source call throws a
read fault.  `readBuf` models `rl.read` of the 512-byte buffer followed by
UTF-16 decoding: it returns the decoded character list. -/
structure Mem where
  uPtr : Int → Option Int
  i32 : Int → Option Int
  readBuf : Int → Option (List Char)

/-- The module-level context of the example: the memory handle, the two
global table base pointers (`gNamesPtr`, `gObjectsPtr`) and the imported
offset constants. -/
structure Ctx where
  rl : Mem
  gNamesPtr : Int
  gObjectsPtr : Int
  UObject : UObjectOffsets
  FNameEntry : FNameEntryOffsets

/-- `getName` from `examples/basic.ts`: read the entry pointer at
`gNamesPtr + index * 8`; a null entry yields `""`; then read the wide
string at `entryPtr + FNameEntry.Name` and truncate at the first NUL
(`indexOf('\0')` / `slice`).  A throwing read is caught and yields
`"<error>"`. -/
def getName (c : Ctx) (index : Int) : String :=
  match c.rl.uPtr (c.gNamesPtr + index * 8) with
  | none => "<error>"
  | some entryPtr =>
    if entryPtr = 0 then ""
    else
      match c.rl.readBuf (entryPtr + c.FNameEntry.Name) with
      | none => "<error>"
      | some buf => String.mk (buf.takeWhile (fun ch => ch ≠ Char.ofNat 0))

/-- `getClassName` from `examples/basic.ts`: read the `Class` pointer of
the object (null yields `""`), read the class object's `Name` index, and
resolve it with `getName`.  A throwing read is caught and yields
`"<error>"`. -/
def getClassName (c : Ctx) (objPtr : Int) : String :=
  match c.rl.uPtr (objPtr + c.UObject.Class) with
  | none => "<error>"
  | some classPtr =>
    if classPtr = 0 then ""
    else
      match c.rl.i32 (classPtr + c.UObject.Name) with
      | none => "<error>"
      | some nameIndex => getName c nameIndex

/-- Result of the outer-chain `while` loop in `getObjectFullName`.
`ok outers` is normal exit with the accumulated (outermost-first) list,
`fault` is a read that threw (caught by the enclosing `try`), and
`nonterm` means the loop had not exited after the given number of
iterations. -/
inductive WalkResult where
  | ok (outers : List String)
  | fault
  | nonterm
  deriving DecidableEq

/-- The outer-chain `while` loop of `getObjectFullName`, with an explicit
iteration budget `fuel`.  The source loop has no bound of its own, so
`nonterm` for every `fuel` means the source loop never terminates.  Each
iteration reads the current outer's `Name` index, resolves it with
`getName`, prepends it (`unshift`), and follows the `Outer` pointer. -/
def outerWalk (c : Ctx) (fuel : Nat) (outer : Int) (outers : List String) : WalkResult :=
  if outer = 0 then .ok outers
  else
    match fuel with
    | 0 => .nonterm
    | f + 1 =>
      match c.rl.i32 (outer + c.UObject.Name) with
      | none => .fault
      | some outerNameIdx =>
        match c.rl.uPtr (outer + c.UObject.Outer) with
        | none => .fault
        | some outerNext => outerWalk c f outerNext (getName c outerNameIdx :: outers)

/-- `getObjectFullName` from `examples/basic.ts`: class name, own name,
outer chain walk, then `outers.join('.') + '.' + name` when the chain is
non-empty, prefixed by the class name and a space.  Any read that throws
inside the function body (outside `getName`/`getClassName`, which catch
their own) is caught and yields `"<error>"`.  The result is `none` when
the unbounded source loop fails to exit within `fuel` iterations (for a
looping chain that holds for every `fuel`, i.e. the source call never
returns). -/
def getObjectFullName (c : Ctx) (fuel : Nat) (objPtr : Int) : Option String :=
  let className := getClassName c objPtr
  match c.rl.i32 (objPtr + c.UObject.Name) with
  | none => some "<error>"
  | some nameIndex =>
    let name := getName c nameIndex
    match c.rl.uPtr (objPtr + c.UObject.Outer) with
    | none => some "<error>"
    | some outer0 =>
      match outerWalk c fuel outer0 [] with
      | .fault => some "<error>"
      | .nonterm => none
      | .ok outers =>
        let path := if outers.length > 0 then String.intercalate "." outers ++ "." ++ name else name
        some (className ++ " " ++ path)

/-- The fixed scan bound of `findByClass` (`const MAX_OBJECTS = 500_000`). -/
def MAX_OBJECTS : Nat := 500000

/-- One yielded element of `findByClass`: `{ ptr, fullName }`. -/
structure Entry where
  ptr : Int
  fullName : String
  deriving DecidableEq

/-- Outcome of one loop iteration of `findByClass` at slot `i`:
`skip` (null slot, class mismatch, or a caught read fault), `yielded e`
(the slot was yielded), or `diverge` (the `getObjectFullName` call for
this slot never returns, because of its unbounded outer walk). -/
inductive SlotStep where
  | skip
  | yielded (e : Entry)
  | diverge
  deriving DecidableEq

/-- The body of one `findByClass` loop iteration: read the slot pointer
(a throwing read is caught and skips the slot), skip null pointers, and
yield `{ ptr, fullName }` when the class name matches. -/
def scanStep (c : Ctx) (fuel : Nat) (cn : String) (i : Nat) : SlotStep :=
  match c.rl.uPtr (c.gObjectsPtr + (i : Int) * 8) with
  | none => .skip
  | some ptr =>
    if ptr = 0 then .skip
    else if getClassName c ptr = cn then
      match getObjectFullName c fuel ptr with
      | none => .diverge
      | some fn => .yielded ⟨ptr, fn⟩
    else .skip

/-- The `for (let i = 0; i < MAX_OBJECTS; i++)` loop of `findByClass`,
with `n` remaining iterations starting at slot `i`.  The first component
records the slot indices the loop examined (the slot reads it issued, in
order); the second is the list of yielded entries, or `none` if one
iteration diverged (so the source loop never reaches the later slots). -/
def scanFrom (c : Ctx) (fuel : Nat) (cn : String) : Nat → Nat → List Nat × Option (List Entry)
  | 0, _ => ([], some [])
  | n + 1, i =>
    match scanStep c fuel cn i with
    | .skip => ((i :: (scanFrom c fuel cn n (i + 1)).1), (scanFrom c fuel cn n (i + 1)).2)
    | .diverge => ([i], none)
    | .yielded e =>
      ((i :: (scanFrom c fuel cn n (i + 1)).1),
        ((scanFrom c fuel cn n (i + 1)).2).map (fun l => e :: l))

/-- `findByClass` from `examples/basic.ts`: one full generator pass over
slots `0 .. MAX_OBJECTS - 1`. -/
def findByClass (c : Ctx) (fuel : Nat) (cn : String) : List Nat × Option (List Entry) :=
  scanFrom c fuel cn MAX_OBJECTS 0

/-- Bitfield read from the README (`(bitfield & mask) !== 0`). -/
def decode (w mask : Nat) : Bool :=
  w &&& mask != 0

/-- Bitfield set from the README (`bitfield |= mask`). -/
def encodeSet (w mask : Nat) : Nat :=
  w ||| mask

/-- Bitfield clear from the README (`bitfield &= ~mask` on the 32-bit
backing word). -/
def encodeClear (w mask : Nat) : Nat :=
  w &&& (0xFFFFFFFF ^^^ mask)

/-- Number of foreign-memory reads one call of `getName` issues, mirroring
the source line by line: the entry-pointer read is always issued (even
when it faults), and the 512-byte buffer read is issued exactly when the
entry pointer is non-null. -/
def getNameReads (c : Ctx) (index : Int) : Nat :=
  match c.rl.uPtr (c.gNamesPtr + index * 8) with
  | none => 1
  | some entryPtr => if entryPtr = 0 then 1 else 2

/-- A sequence of `getName` calls with the reads they issue in total.
`getName` reads no mutable program state and writes none (the source
declares no cache), so each call's result and read count depend only on
the memory snapshot, not on earlier calls. -/
def getNameCalls (c : Ctx) : List Int → List String × Nat
  | [] => ([], 0)
  | i :: rest =>
    ((getName c i :: (getNameCalls c rest).1), getNameReads c i + (getNameCalls c rest).2)

/-- Number of foreign-memory reads one call of `getClassName` issues,
mirroring the source: the `Class`-pointer read is always issued; the class
`Name`-index read is issued when the class pointer is non-null; plus the
reads of the inner `getName` call. -/
def getClassNameReads (c : Ctx) (objPtr : Int) : Nat :=
  match c.rl.uPtr (objPtr + c.UObject.Class) with
  | none => 1
  | some classPtr =>
    if classPtr = 0 then 1
    else
      match c.rl.i32 (classPtr + c.UObject.Name) with
      | none => 2
      | some nameIndex => 2 + getNameReads c nameIndex

/-- A sequence of `getClassName` calls with the reads they issue in total.
Like `getName`, `getClassName` keeps no mutable state in the source, so
every call repeats the same reads against the same memory snapshot. -/
def getClassNameCalls (c : Ctx) : List Int → List String × Nat
  | [] => ([], 0)
  | p :: rest =>
    ((getClassName c p :: (getClassNameCalls c rest).1),
      getClassNameReads c p + (getClassNameCalls c rest).2)

/-- Pointer reads of a small synthetic memory snapshot.  Name-table slots
sit at `1000 + 8 * index`; name entries at `3000 + 100 * k` with their
strings at entry `+ 16`; a depth-3 outer chain `A.B.C` with own object `D`
at `4000 .. 4300`; the class object (name `X`) at `5000`; a
self-referential object (its `Outer` field holds its own address) at
`6000`; the object-table slots at `10000000 + 8 * i` (slot `0` faults,
slot `1` holds the `D` object, every other slot is null).  Unlisted
addresses fault. -/
def exUPtr (a : Int) : Option Int :=
  if a = 10000008 then some 4000
  else if 10000000 < a ∧ a < 14000000 then some 0
  else if a = 1008 then some 3000
  else if a = 1016 then some 3100
  else if a = 1024 then some 3200
  else if a = 1032 then some 3300
  else if a = 1040 then some 3400
  else if a = 1048 then some 0
  else if a = 1056 then some 3500
  else if a = 4080 then some 5000
  else if a = 4072 then some 4100
  else if a = 4172 then some 4200
  else if a = 4272 then some 4300
  else if a = 4372 then some 0
  else if a = 4380 then some 5000
  else if a = 6080 then some 5000
  else if a = 6072 then some 6000
  else none

/-- 32-bit reads of the synthetic snapshot: the `Name` indices of the
chain objects, of the class object, of the self-referential object, and
of an object whose `Outer` read faults. -/
def exI32 (a : Int) : Option Int :=
  if a = 4064 then some 5
  else if a = 4164 then some 4
  else if a = 4264 then some 3
  else if a = 4364 then some 2
  else if a = 5064 then some 1
  else if a = 6064 then some 5
  else if a = 7464 then some 5
  else none

/-- Wide-string buffer reads of the synthetic snapshot: the five name
strings `X`, `A`, `B`, `C`, `D` (NUL-terminated); the entry at `3500` has
no readable string (the buffer read faults). -/
def exBuf (a : Int) : Option (List Char) :=
  if a = 3016 then some [Char.ofNat 88, Char.ofNat 0]
  else if a = 3116 then some [Char.ofNat 65, Char.ofNat 0]
  else if a = 3216 then some [Char.ofNat 66, Char.ofNat 0]
  else if a = 3316 then some [Char.ofNat 67, Char.ofNat 0]
  else if a = 3416 then some [Char.ofNat 68, Char.ofNat 0]
  else none

/-- The synthetic context: `gNamesPtr = 1000`, `gObjectsPtr = 10000000`,
and spec-shaped offsets (`Class = 80`, `Name = 64`, `Outer = 72`,
string sub-offset `16`). -/
def exCtx : Ctx where
  rl := { uPtr := exUPtr, i32 := exI32, readBuf := exBuf }
  gNamesPtr := 1000
  gObjectsPtr := 10000000
  UObject := { Class := 80, Name := 64, Outer := 72 }
  FNameEntry := { Name := 16 }


/-- Bits outside a mask survive `encodeSet`: ORing in a mask that is
disjoint from `b` does not change the word's `b`-masked part. -/
theorem encodeSet_preserves_disjoint (w m b : Nat) (h : m &&& b = 0) :
    encodeSet w m &&& b = w &&& b := by
  apply Nat.eq_of_testBit_eq
  intro i
  have hm : (m.testBit i && b.testBit i) = false := by
    rw [← Nat.testBit_and, h, Nat.zero_testBit]
  simp only [encodeSet, Nat.testBit_and, Nat.testBit_or]
  cases hb : b.testBit i <;> cases hmi : m.testBit i <;> simp_all

/-- Bits outside a mask survive `encodeClear`: ANDing with the 32-bit
complement of a mask disjoint from `b` does not change the word's
`b`-masked part, for `b` inside the 32-bit backing word. -/
theorem encodeClear_preserves_disjoint (w m b : Nat) (hb : b < 2 ^ 32) (h : m &&& b = 0) :
    encodeClear w m &&& b = w &&& b := by
  apply Nat.eq_of_testBit_eq
  intro i
  by_cases hi : i < 32
  · have hF : Nat.testBit 0xFFFFFFFF i = true := by
      have h32 : (0xFFFFFFFF : Nat) = 2 ^ 32 - 1 := by norm_num
      rw [h32, Nat.testBit_two_pow_sub_one]
      simpa using hi
    have hm : (m.testBit i && b.testBit i) = false := by
      rw [← Nat.testBit_and, h, Nat.zero_testBit]
    simp only [encodeClear, Nat.testBit_and, Nat.testBit_xor, hF]
    cases hbi : b.testBit i <;> cases hmi : m.testBit i <;> simp_all
  · have hb0 : b.testBit i = false := by
      apply Nat.testBit_eq_false_of_lt
      calc b < 2 ^ 32 := hb
        _ ≤ 2 ^ i := Nat.pow_le_pow_right (by norm_num) (by omega)
    simp [Nat.testBit_and, hb0]

/-- C7: the bitfield operations are exactly the README's `&`/`|`/`& ~`
operations; the round trip `0x5 → encodeSet 0x2 → 0x7 → encodeClear 0x2 →
0x5` holds, `decode 0x7 0x2` is true, setting `0x2` in `0x1` gives `0x3`,
and both `encodeSet` and `encodeClear` leave every disjoint bit group
unchanged. -/
theorem bitfield_ops_spec :
    (∀ w m : Nat, decode w m = (w &&& m != 0) ∧ encodeSet w m = (w ||| m) ∧
      encodeClear w m = w &&& (0xFFFFFFFF ^^^ m)) ∧
    encodeSet 5 2 = 7 ∧ decode 7 2 = true ∧ encodeClear 7 2 = 5 ∧ encodeSet 1 2 = 3 ∧
    (∀ w m b : Nat, b < 2 ^ 32 → m &&& b = 0 →
      encodeSet w m &&& b = w &&& b ∧ encodeClear w m &&& b = w &&& b) := by
  refine ⟨fun w m => ⟨rfl, rfl, rfl⟩, by decide, by decide, by decide, by decide, ?_⟩
  intro w m b hb h
  exact ⟨encodeSet_preserves_disjoint w m b h, encodeClear_preserves_disjoint w m b hb h⟩

/-- Witness for C7: sibling-bit preservation at `w = 1`, `m = 2`,
`b = 1` — bit `0x1` survives both setting and clearing bit `0x2`. -/
theorem bitfield_ops_spec_witness :
    encodeSet 1 2 &&& 1 = 1 &&& 1 ∧ encodeClear 1 2 &&& 1 = 1 &&& 1 :=
  bitfield_ops_spec.2.2.2.2.2 1 2 1 (by norm_num) (by decide)

/-- C2 (refuting the code, supporting the claim): on the synthetic object
at `6000`, whose `Outer` field holds its own address, the outer-chain
`while` loop of `getObjectFullName` is still running after any number of
iterations, and `getObjectFullName` never returns (`none` for every
fuel).  The source imposes no defensive traversal depth, so the walk runs
unboundedly on a self-referential chain. -/
theorem getObjectFullName_self_loop_diverges :
    (∀ fuel : Nat, ∀ acc : List String, outerWalk exCtx fuel 6000 acc = .nonterm) ∧
    (∀ fuel : Nat, getObjectFullName exCtx fuel 6000 = none) := by
  have hwalk : ∀ fuel : Nat, ∀ acc : List String,
      outerWalk exCtx fuel 6000 acc = .nonterm := by
    intro fuel
    induction fuel with
    | zero => intro acc; rfl
    | succ f ih =>
      intro acc
      have e1 : exCtx.rl.i32 (6000 + exCtx.UObject.Name) = some 5 := rfl
      have e2 : exCtx.rl.uPtr (6000 + exCtx.UObject.Outer) = some 6000 := rfl
      rw [outerWalk, if_neg (by norm_num), e1, e2]
      exact ih _
  refine ⟨hwalk, fun fuel => ?_⟩
  have e3 : exCtx.rl.i32 (6000 + exCtx.UObject.Name) = some 5 := rfl
  have e4 : exCtx.rl.uPtr (6000 + exCtx.UObject.Outer) = some 6000 := rfl
  rw [getObjectFullName]
  simp only [e3, e4, hwalk fuel []]

/-- Counterexample for C4: against the synthetic snapshot, resolving index
`5` succeeds (`"D"`) with `2` foreign reads; a second call with the same
index issues `2` further reads (total `4`), not `0` — `getName` in the
source declares no cache and consults no mutable state, so the second
call repeats every read of the first. -/
theorem getName_second_call_reads_counterexample :
    (getNameCalls exCtx [5]).2 = 2 ∧ (getNameCalls exCtx [5, 5]).2 = 4 ∧
    (getNameCalls exCtx [5, 5]).1 = ["D", "D"] ∧ (getNameCalls exCtx [5, 5]).2 ≠ 2 := by
  refine ⟨by decide, by decide, by decide, by decide⟩

/-- C4 amended: `getName` keeps no index-to-string cache.  A later call
with the same index returns the same string, but re-issues the same
foreign reads as the first call — at least the entry-pointer read — so a
repeated call never runs read-free. -/
theorem getName_stateless_rereads :
    ∀ (c : Ctx) (idx : Int),
      (getNameCalls c [idx, idx]).1 = [getName c idx, getName c idx] ∧
      (getNameCalls c [idx, idx]).2 = getNameReads c idx + getNameReads c idx ∧
      1 ≤ getNameReads c idx := by
  intro c idx
  refine ⟨rfl, by simp [getNameCalls], ?_⟩
  rw [getNameReads]
  split
  · exact Nat.le_refl 1
  · split <;> omega

/-- Counterexample for C3: against the synthetic snapshot, resolving the
class of the object at `4000` succeeds (`"X"`) with `4` foreign reads; a
second call for the same object (same ClassPointer) issues `4` further
reads (total `8`), not `0` — `getClassName` in the source declares no
cache keyed by the class pointer (or by anything else), so the second
call repeats every read of the first. -/
theorem getClassName_second_call_reads_counterexample :
    (getClassNameCalls exCtx [4000]).2 = 4 ∧ (getClassNameCalls exCtx [4000, 4000]).2 = 8 ∧
    (getClassNameCalls exCtx [4000, 4000]).1 = ["X", "X"] ∧
    (getClassNameCalls exCtx [4000, 4000]).2 ≠ 4 := by
  refine ⟨by decide, by decide, by decide, by decide⟩

/-- C3 amended: `getClassName` caches nothing.  A second call for an
object with the same ClassPointer returns the same string, but re-issues
the same foreign reads as the first call — at least the Class-pointer
read — so no call is ever served from a cache. -/
theorem getClassName_stateless_rereads :
    ∀ (c : Ctx) (objPtr : Int),
      (getClassNameCalls c [objPtr, objPtr]).1 = [getClassName c objPtr, getClassName c objPtr] ∧
      (getClassNameCalls c [objPtr, objPtr]).2 = getClassNameReads c objPtr + getClassNameReads c objPtr ∧
      1 ≤ getClassNameReads c objPtr := by
  intro c objPtr
  refine ⟨rfl, by simp [getClassNameCalls], ?_⟩
  rw [getClassNameReads]
  split
  · exact Nat.le_refl 1
  · split
    · exact Nat.le_refl 1
    · split <;> omega

/-- C1: whenever the own-name read and the outer read succeed and the
outer-chain walk exits normally with a non-empty chain,
`getObjectFullName` returns the class name, one space, the outer names
outermost-first joined with `.`, then `.` and the own name; and on the
synthetic depth-3 chain (outers `A.B.C`, own name `D`, class name `X`)
it returns exactly `"X A.B.C.D"`. -/
theorem getObjectFullName_format :
    (∀ (c : Ctx) (fuel : Nat) (objPtr nIdx out0 : Int) (outs : List String),
      c.rl.i32 (objPtr + c.UObject.Name) = some nIdx →
      c.rl.uPtr (objPtr + c.UObject.Outer) = some out0 →
      outerWalk c fuel out0 [] = .ok outs →
      outs ≠ [] →
      getObjectFullName c fuel objPtr =
        some (getClassName c objPtr ++ " " ++
          String.intercalate "." outs ++ "." ++ getName c nIdx)) ∧
    getObjectFullName exCtx 10 4000 = some "X A.B.C.D" := by
  refine ⟨?_, by decide⟩
  intro c fuel objPtr nIdx out0 outs h1 h2 h3 h4
  rw [getObjectFullName]
  simp only [h1, h2, h3]
  rw [if_pos (List.length_pos.mpr h4)]
  simp [String.append_assoc]

/-- Witness for C1: the format theorem applied to the synthetic depth-3
chain at `4000` (own name index `5`, first outer `4100`, chain
`["A", "B", "C"]`). -/
theorem getObjectFullName_format_witness :
    getObjectFullName exCtx 10 4000 =
      some (getClassName exCtx 4000 ++ " " ++
        String.intercalate "." ["A", "B", "C"] ++ "." ++ getName exCtx 5) :=
  getObjectFullName_format.1 exCtx 10 4000 5 4100 ["A", "B", "C"] rfl rfl (by decide) (by decide)

/-- C10: when the object's `Outer` field is null, the `while` loop is
never entered, the accumulated chain is empty, and `getObjectFullName`
returns the class name, a single space, and the own name — no `.`
separator is ever appended. -/
theorem getObjectFullName_empty_outer :
    ∀ (c : Ctx) (fuel : Nat) (objPtr nIdx : Int),
      c.rl.i32 (objPtr + c.UObject.Name) = some nIdx →
      c.rl.uPtr (objPtr + c.UObject.Outer) = some 0 →
      getObjectFullName c fuel objPtr = some (getClassName c objPtr ++ " " ++ getName c nIdx) := by
  intro c fuel objPtr nIdx h1 h2
  have hw : outerWalk c fuel 0 [] = .ok [] := by rw [outerWalk.eq_def]; exact if_pos rfl
  rw [getObjectFullName]
  simp only [h1, h2, hw, List.length_nil]
  rfl

/-- Witness for C10: the empty-outer theorem applied to the synthetic
object at `4300` (name index `2`, `Outer = 0`): the result is the class
name, a space, and the own name. -/
theorem getObjectFullName_empty_outer_witness :
    getObjectFullName exCtx 10 4300 = some (getClassName exCtx 4300 ++ " " ++ getName exCtx 2) :=
  getObjectFullName_empty_outer exCtx 10 4300 2 rfl rfl

/-- C5: no read failure escapes `getName`, `getClassName` or
`getObjectFullName`.  A null name-table entry yields `""`; a faulting
entry-pointer or buffer read yields `"<error>"`; a faulting Class-pointer
or Name-index read in `getClassName` yields `"<error>"` (a null class
pointer yields `""`); and a faulting read anywhere inside
`getObjectFullName` — the own-name read, the first outer read, or any
read inside the chain walk — makes the call return the `"<error>"`
sentinel instead of raising. -/
theorem resolver_read_failures_contained :
    ∀ (c : Ctx) (idx objPtr : Int) (fuel : Nat),
      (c.rl.uPtr (c.gNamesPtr + idx * 8) = some 0 → getName c idx = "") ∧
      (c.rl.uPtr (c.gNamesPtr + idx * 8) = none → getName c idx = "<error>") ∧
      (∀ ep : Int, c.rl.uPtr (c.gNamesPtr + idx * 8) = some ep → ep ≠ 0 →
        c.rl.readBuf (ep + c.FNameEntry.Name) = none → getName c idx = "<error>") ∧
      (c.rl.uPtr (objPtr + c.UObject.Class) = none → getClassName c objPtr = "<error>") ∧
      (c.rl.uPtr (objPtr + c.UObject.Class) = some 0 → getClassName c objPtr = "") ∧
      (∀ cp : Int, c.rl.uPtr (objPtr + c.UObject.Class) = some cp → cp ≠ 0 →
        c.rl.i32 (cp + c.UObject.Name) = none → getClassName c objPtr = "<error>") ∧
      (c.rl.i32 (objPtr + c.UObject.Name) = none →
        getObjectFullName c fuel objPtr = some "<error>") ∧
      (∀ nIdx : Int, c.rl.i32 (objPtr + c.UObject.Name) = some nIdx →
        c.rl.uPtr (objPtr + c.UObject.Outer) = none →
        getObjectFullName c fuel objPtr = some "<error>") ∧
      (∀ nIdx out0 : Int, c.rl.i32 (objPtr + c.UObject.Name) = some nIdx →
        c.rl.uPtr (objPtr + c.UObject.Outer) = some out0 →
        outerWalk c fuel out0 [] = .fault →
        getObjectFullName c fuel objPtr = some "<error>") := by
  intro c idx objPtr fuel
  refine ⟨?_, ?_, ?_, ?_, ?_, ?_, ?_, ?_, ?_⟩
  · intro h; simp [getName, h]
  · intro h; rw [getName]; simp only [h]
  · intro ep h hne hbuf; rw [getName]; simp only [h, if_neg hne, hbuf]
  · intro h; rw [getClassName]; simp only [h]
  · intro h; simp [getClassName, h]
  · intro cp h hne hn; rw [getClassName]; simp only [h, if_neg hne, hn]
  · intro h; rw [getObjectFullName]; simp only [h]
  · intro nIdx h1 h2; rw [getObjectFullName]; simp only [h1, h2]
  · intro nIdx out0 h1 h2 h3; rw [getObjectFullName]; simp only [h1, h2, h3]

/-- Witness for C5: the containment theorem applied to the synthetic
snapshot — a null entry at index `6` gives `""`, a faulting entry read at
index `99` gives `"<error>"`, an entry at index `7` whose buffer read
faults gives `"<error>"`, an object at `7000` whose Class read faults
gives `"<error>"`, and the object at `7400` whose `Outer` read faults
gives `some "<error>"` from `getObjectFullName`. -/
theorem resolver_read_failures_contained_witness :
    getName exCtx 6 = "" ∧ getName exCtx 99 = "<error>" ∧ getName exCtx 7 = "<error>" ∧
    getClassName exCtx 7000 = "<error>" ∧ getObjectFullName exCtx 1 7400 = some "<error>" :=
  ⟨(resolver_read_failures_contained exCtx 6 0 0).1 rfl,
    (resolver_read_failures_contained exCtx 99 0 0).2.1 rfl,
    (resolver_read_failures_contained exCtx 7 0 0).2.2.1 3500 rfl (by decide) rfl,
    (resolver_read_failures_contained exCtx 0 7000 0).2.2.2.1 rfl,
    (resolver_read_failures_contained exCtx 0 7400 1).2.2.2.2.2.2.2.1 5 rfl rfl⟩

/-- A slot whose pointer read faults is skipped (the source `catch`
swallows the fault and the `for` loop moves on). -/
theorem scanStep_fault (c : Ctx) (fuel : Nat) (cn : String) (i : Nat)
    (h : c.rl.uPtr (c.gObjectsPtr + (i : Int) * 8) = none) :
    scanStep c fuel cn i = .skip := by
  rw [scanStep]; simp only [h]

/-- A null slot is skipped (`if (ptr === 0n) continue`). -/
theorem scanStep_null (c : Ctx) (fuel : Nat) (cn : String) (i : Nat)
    (h : c.rl.uPtr (c.gObjectsPtr + (i : Int) * 8) = some 0) :
    scanStep c fuel cn i = .skip := by
  rw [scanStep]; simp [h]

/-- A yielded slot carries a non-null pointer whose class name matches the
requested one. -/
theorem scanStep_yielded_inv (c : Ctx) (fuel : Nat) (cn : String) (i : Nat) (e : Entry)
    (h : scanStep c fuel cn i = .yielded e) :
    e.ptr ≠ 0 ∧ getClassName c e.ptr = cn := by
  rw [scanStep] at h
  split at h
  · cases h
  · split at h
    · cases h
    · split at h
      · split at h
        · cases h
        · cases h
          exact ⟨by assumption, by assumption⟩
      · cases h

/-- Unfolding of one `skip` iteration of the scan loop. -/
theorem scanFrom_succ_skip (c : Ctx) (fuel : Nat) (cn : String) (n i : Nat)
    (h : scanStep c fuel cn i = .skip) :
    scanFrom c fuel cn (n + 1) i =
      ((i :: (scanFrom c fuel cn n (i + 1)).1), (scanFrom c fuel cn n (i + 1)).2) := by
  rw [scanFrom, h]

/-- Unfolding of one yielding iteration of the scan loop. -/
theorem scanFrom_succ_yielded (c : Ctx) (fuel : Nat) (cn : String) (n i : Nat) (e : Entry)
    (h : scanStep c fuel cn i = .yielded e) :
    scanFrom c fuel cn (n + 1) i =
      ((i :: (scanFrom c fuel cn n (i + 1)).1),
        ((scanFrom c fuel cn n (i + 1)).2).map (fun l => e :: l)) := by
  rw [scanFrom, h]

/-- The trace of a non-empty scan loop starts with the current slot and is
either cut short there (a diverging iteration) or followed by the trace of
the rest of the loop. -/
theorem scanFrom_trace_shape (c : Ctx) (fuel : Nat) (cn : String) (n i : Nat) :
    (scanStep c fuel cn i = .diverge ∧ (scanFrom c fuel cn (n + 1) i).1 = [i]) ∨
    (scanStep c fuel cn i ≠ .diverge ∧
      (scanFrom c fuel cn (n + 1) i).1 = i :: (scanFrom c fuel cn n (i + 1)).1) := by
  rcases h : scanStep c fuel cn i with _ | e | _
  · right; refine ⟨by simp [h], ?_⟩; rw [scanFrom, h]
  · right; refine ⟨by simp [h], ?_⟩; rw [scanFrom, h]
  · left; refine ⟨rfl, ?_⟩; rw [scanFrom, h]

/-- Every slot index in the scan trace lies between the start of the loop
and its bound. -/
theorem scanFrom_trace_mem (c : Ctx) (fuel : Nat) (cn : String) :
    ∀ n i j, j ∈ (scanFrom c fuel cn n i).1 → i ≤ j ∧ j < i + n := by
  intro n
  induction n with
  | zero => intro i j hj; rw [scanFrom] at hj; cases hj
  | succ n ih =>
    intro i j hj
    rcases scanFrom_trace_shape c fuel cn n i with ⟨_, hs⟩ | ⟨_, hs⟩
    · rw [hs] at hj
      have : j = i := List.mem_singleton.mp hj
      omega
    · rw [hs] at hj
      rcases List.mem_cons.mp hj with h | h
      · omega
      · have := ih (i + 1) j h
        omega

/-- A scan loop with iterations left examines its starting slot first. -/
theorem scanFrom_trace_head (c : Ctx) (fuel : Nat) (cn : String) (n i : Nat) (h : 0 < n) :
    ((scanFrom c fuel cn n i).1).head? = some i := by
  rcases n with _ | n
  · omega
  · rcases scanFrom_trace_shape c fuel cn n i with ⟨_, hs⟩ | ⟨_, hs⟩ <;> rw [hs] <;> rfl

/-- The scan trace is strictly increasing. -/
theorem scanFrom_trace_chain (c : Ctx) (fuel : Nat) (cn : String) :
    ∀ n i, List.Chain' (fun a b => a < b) (scanFrom c fuel cn n i).1 := by
  intro n
  induction n with
  | zero => intro i; rw [scanFrom]; exact List.chain'_nil
  | succ n ih =>
    intro i
    rcases scanFrom_trace_shape c fuel cn n i with ⟨_, hs⟩ | ⟨_, hs⟩
    · rw [hs]; exact List.chain'_singleton i
    · rw [hs]
      refine List.chain'_cons'.mpr ⟨?_, ih (i + 1)⟩
      intro y hy
      have hmem : y ∈ (scanFrom c fuel cn n (i + 1)).1 := List.mem_of_mem_head? hy
      have := scanFrom_trace_mem c fuel cn n (i + 1) y hmem
      omega

/-- The scan loop examines at most as many slots as it has iterations. -/
theorem scanFrom_trace_len (c : Ctx) (fuel : Nat) (cn : String) :
    ∀ n i, (scanFrom c fuel cn n i).1.length ≤ n := by
  intro n
  induction n with
  | zero => intro i; rw [scanFrom]; exact Nat.le_refl 0
  | succ n ih =>
    intro i
    rcases scanFrom_trace_shape c fuel cn n i with ⟨_, hs⟩ | ⟨_, hs⟩
    · rw [hs]; simp
    · rw [hs]
      simp only [List.length_cons]
      exact Nat.succ_le_succ (ih (i + 1))

/-- When the scan loop runs to completion (`some l`), a slot inside its
range whose iteration yields an entry is examined, and its entry appears
in the final list — no earlier skipped or faulting slot drops it. -/
theorem scanFrom_yield_mem (c : Ctx) (fuel : Nat) (cn : String) :
    ∀ n i j e l, i ≤ j → j < i + n → scanStep c fuel cn j = .yielded e →
      (scanFrom c fuel cn n i).2 = some l →
      j ∈ (scanFrom c fuel cn n i).1 ∧ e ∈ l := by
  intro n
  induction n with
  | zero => intro i j e l h1 h2; omega
  | succ n ih =>
    intro i j e l h1 h2 hstep hres
    by_cases hij : i = j
    · subst hij
      rw [scanFrom_succ_yielded c fuel cn n i e hstep] at hres ⊢
      rcases hr : (scanFrom c fuel cn n (i + 1)).2 with _ | l'
      · rw [hr] at hres; cases hres
      · rw [hr] at hres
        simp only [Option.map_some] at hres
        cases hres
        exact ⟨List.mem_cons_self _ _, List.mem_cons_self _ _⟩
    · rcases hs : scanStep c fuel cn i with _ | e' | _
      · rw [scanFrom_succ_skip c fuel cn n i hs] at hres ⊢
        have := ih (i + 1) j e l (by omega) (by omega) hstep hres
        exact ⟨List.mem_cons_of_mem _ this.1, this.2⟩
      · rw [scanFrom_succ_yielded c fuel cn n i e' hs] at hres ⊢
        rcases hr : (scanFrom c fuel cn n (i + 1)).2 with _ | l'
        · rw [hr] at hres; cases hres
        · rw [hr] at hres
          simp only [Option.map_some] at hres
          cases hres
          have := ih (i + 1) j e l' (by omega) (by omega) hstep hr
          exact ⟨List.mem_cons_of_mem _ this.1, List.mem_cons_of_mem _ this.2⟩
      · rw [scanFrom, hs] at hres
        cases hres

/-- Every entry of a completed scan comes from a yielding iteration:
its pointer is non-null and its class name is the requested one. -/
theorem scanFrom_sound (c : Ctx) (fuel : Nat) (cn : String) :
    ∀ n i l, (scanFrom c fuel cn n i).2 = some l →
      ∀ e, e ∈ l → e.ptr ≠ 0 ∧ getClassName c e.ptr = cn := by
  intro n
  induction n with
  | zero =>
    intro i l hres e he
    rw [scanFrom] at hres
    cases hres
    cases he
  | succ n ih =>
    intro i l hres e he
    rcases hs : scanStep c fuel cn i with _ | e' | _
    · rw [scanFrom_succ_skip c fuel cn n i hs] at hres
      exact ih (i + 1) l hres e he
    · rw [scanFrom_succ_yielded c fuel cn n i e' hs] at hres
      rcases hr : (scanFrom c fuel cn n (i + 1)).2 with _ | l'
      · rw [hr] at hres; cases hres
      · rw [hr] at hres
        simp only [Option.map_some] at hres
        cases hres
        rcases List.mem_cons.mp he with h | h
        · subst h
          exact scanStep_yielded_inv c fuel cn i e hs
        · exact ih (i + 1) l' hr e h
    · rw [scanFrom, hs] at hres
      cases hres

/-- An examined slot whose iteration does not diverge never ends the
loop: the next in-range slot is examined as well. -/
theorem scanFrom_next_examined (c : Ctx) (fuel : Nat) (cn : String) :
    ∀ n i k, k ∈ (scanFrom c fuel cn n i).1 → scanStep c fuel cn k ≠ .diverge →
      k + 1 < i + n → k + 1 ∈ (scanFrom c fuel cn n i).1 := by
  intro n
  induction n with
  | zero => intro i k hk; rw [scanFrom] at hk; cases hk
  | succ n ih =>
    intro i k hk hnd hlt
    rcases scanFrom_trace_shape c fuel cn n i with ⟨hd, hs⟩ | ⟨hd, hs⟩
    · rw [hs] at hk
      have : k = i := List.mem_singleton.mp hk
      subst this
      exact absurd hd hnd
    · rw [hs] at hk ⊢
      rcases List.mem_cons.mp hk with h | h
      · subst h
        have hn : 0 < n := by omega
        have := scanFrom_trace_head c fuel cn n (k + 1) hn
        exact List.mem_cons_of_mem _ (List.mem_of_mem_head? this)
      · have := ih (i + 1) k h hnd (by omega)
        exact List.mem_cons_of_mem _ this

/-- A stretch of null slots contributes nothing: if every slot in range is
null, the loop completes with the empty list. -/
theorem scanFrom_all_null (c : Ctx) (fuel : Nat) (cn : String) :
    ∀ n i, (∀ j : Nat, i ≤ j → j < i + n → c.rl.uPtr (c.gObjectsPtr + (j : Int) * 8) = some 0) →
      (scanFrom c fuel cn n i).2 = some [] := by
  intro n
  induction n with
  | zero => intro i _; rw [scanFrom]
  | succ n ih =>
    intro i hall
    have hs : scanStep c fuel cn i = .skip :=
      scanStep_null c fuel cn i (hall i (Nat.le_refl i) (by omega))
    rw [scanFrom_succ_skip c fuel cn n i hs]
    exact ih (i + 1) (fun j h1 h2 => hall j (by omega) (by omega))

/-- Concrete full pass over the synthetic snapshot: slot `0` faults and is
skipped, slot `1` yields the `D` object with its full name, every other
slot is null — the pass completes with exactly that one entry. -/
theorem exScan : (findByClass exCtx 10 "X").2 = some [⟨4000, "X A.B.C.D"⟩] := by
  have htail : (scanFrom exCtx 10 "X" 499998 2).2 = some [] := by
    apply scanFrom_all_null
    intro j h1 h2
    show exUPtr (10000000 + (j : Int) * 8) = some 0
    rw [exUPtr]
    rw [if_neg (by omega), if_pos (by constructor <;> omega)]
  have hs0 : scanStep exCtx 10 "X" 0 = .skip := by decide
  have hs1 : scanStep exCtx 10 "X" 1 = .yielded ⟨4000, "X A.B.C.D"⟩ := by decide
  have h500 : MAX_OBJECTS = 499999 + 1 := rfl
  have h499 : (499999 : Nat) = 499998 + 1 := rfl
  rw [findByClass, h500, scanFrom_succ_skip exCtx 10 "X" 499999 0 hs0]
  rw [h499, scanFrom_succ_yielded exCtx 10 "X" 499998 1 ⟨4000, "X A.B.C.D"⟩ hs1]
  rw [htail]
  rfl

/-- C8: every pass of `findByClass` examines object-table slots in
strictly increasing order, starts at slot `0`, examines at most
`MAX_OBJECTS` slots (the fixed defensive cap — the loop bound is a
constant, independent of any capacity field of the foreign table), and
every examined slot index is below the cap. -/
theorem findByClass_scan_order_bounded :
    ∀ (c : Ctx) (fuel : Nat) (cn : String),
      List.Chain' (fun a b => a < b) (findByClass c fuel cn).1 ∧
      ((findByClass c fuel cn).1).head? = some 0 ∧
      (findByClass c fuel cn).1.length ≤ MAX_OBJECTS ∧
      ∀ j, j ∈ (findByClass c fuel cn).1 → j < MAX_OBJECTS := by
  intro c fuel cn
  refine ⟨scanFrom_trace_chain c fuel cn MAX_OBJECTS 0,
    scanFrom_trace_head c fuel cn MAX_OBJECTS 0 (by norm_num [MAX_OBJECTS]),
    scanFrom_trace_len c fuel cn MAX_OBJECTS 0, ?_⟩
  intro j hj
  have := scanFrom_trace_mem c fuel cn MAX_OBJECTS 0 j hj
  omega

/-- C6: a slot whose pointer read faults does not end the pass.  The
faulting slot is skipped; if it was examined and its successor is in
range, the successor is examined too; and any later slot that yields an
entry still contributes that entry to a completed pass. -/
theorem findByClass_fault_does_not_end_pass :
    ∀ (c : Ctx) (fuel : Nat) (cn : String) (i : Nat),
      c.rl.uPtr (c.gObjectsPtr + (i : Int) * 8) = none →
      (i + 1 < MAX_OBJECTS → i ∈ (findByClass c fuel cn).1 →
        i + 1 ∈ (findByClass c fuel cn).1) ∧
      (∀ (j : Nat) (e : Entry) (l : List Entry), i < j → j < MAX_OBJECTS →
        scanStep c fuel cn j = .yielded e →
        (findByClass c fuel cn).2 = some l → e ∈ l) := by
  intro c fuel cn i hfault
  constructor
  · intro hrange hmem
    have hnd : scanStep c fuel cn i ≠ .diverge := by
      rw [scanStep_fault c fuel cn i hfault]
      intro h
      cases h
    exact scanFrom_next_examined c fuel cn MAX_OBJECTS 0 i hmem hnd (by omega)
  · intro j e l hij hj hstep hres
    exact (scanFrom_yield_mem c fuel cn MAX_OBJECTS 0 j e l (by omega) (by omega) hstep hres).2

/-- Witness for C6 on the synthetic snapshot: slot `0` read-faults, yet
slot `1` is still examined, and the entry slot `1` yields is in the
completed pass's output. -/
theorem findByClass_fault_does_not_end_pass_witness :
    (0 : Nat) + 1 ∈ (findByClass exCtx 10 "X").1 ∧
    Entry.mk 4000 "X A.B.C.D" ∈ [Entry.mk 4000 "X A.B.C.D"] := by
  have h := findByClass_fault_does_not_end_pass exCtx 10 "X" 0 rfl
  have h0 : (0 : Nat) ∈ (findByClass exCtx 10 "X").1 :=
    List.mem_of_mem_head? (scanFrom_trace_head exCtx 10 "X" MAX_OBJECTS 0 (by norm_num [MAX_OBJECTS]))
  exact ⟨h.1 (by norm_num [MAX_OBJECTS]) h0,
    h.2 1 ⟨4000, "X A.B.C.D"⟩ [⟨4000, "X A.B.C.D"⟩] (by omega) (by norm_num [MAX_OBJECTS])
      (by decide) exScan⟩

/-- C9: every pair yielded by a completed `findByClass` pass has a
non-null object pointer whose resolved class name is exactly the
requested one — null slots and objects of other classes are never
yielded. -/
theorem findByClass_yields_only_matching :
    ∀ (c : Ctx) (fuel : Nat) (cn : String) (l : List Entry) (e : Entry),
      (findByClass c fuel cn).2 = some l → e ∈ l →
      e.ptr ≠ 0 ∧ getClassName c e.ptr = cn := by
  intro c fuel cn l e hres he
  exact scanFrom_sound c fuel cn MAX_OBJECTS 0 l hres e he

/-- Witness for C9 on the synthetic snapshot: the single entry of the
completed pass for class `"X"` has the non-null pointer `4000` and class
name `"X"`. -/
theorem findByClass_yields_only_matching_witness :
    (4000 : Int) ≠ 0 ∧ getClassName exCtx 4000 = "X" :=
  findByClass_yields_only_matching exCtx 10 "X" [⟨4000, "X A.B.C.D"⟩] ⟨4000, "X A.B.C.D"⟩
    exScan (List.mem_singleton.mpr rfl)
